import Mathlib

/-!
Verification of the round-scoring/validation engine and adaptive opponent
model of the `cwdnometerra` category word game, together with the round
controller in `src/js/app.js`.  The controller (`endGame`, `savePlayerStats`,
`loadPlayerStats`) is embedded from `src/js/app.js`; the Validator and the
opponent model live in `validator.js` / `camiloAI.js`, which are not part of
the available sources, so those operations are modelled from the
specification (each such definition says so in its doc comment).
-/

/-- The fixed, ordered category enumeration.  The sixteen categories and
their order are taken from the form-collection block of `src/js/app.js`
(lines 113-130): name, place, country, animal, object, color, element,
profession, media, brand, plant, verb, adjective, emotion, continent,
fruit. -/
inductive Category where
  | name | place | country | animal | object | color | element | profession
  | media | brand | plant | verb | adjective | emotion | continent | fruit
deriving DecidableEq

/-- The fixed enumeration order of the sixteen categories, as they appear in
`src/js/app.js` lines 113-130. -/
def Category.all : List Category :=
  [.name, .place, .country, .animal, .object, .color, .element, .profession,
   .media, .brand, .plant, .verb, .adjective, .emotion, .continent, .fruit]

/-- An AnswerSet maps every category to a (possibly empty) answer string;
totality of the function captures the data-model invariant that an answer
set always carries the full fixed category set. -/
abbrev AnswerSet := Category → String

/-- Characters stripped by JavaScript `String.prototype.trim` (the common
ASCII whitespace cases). -/
def jsWhitespace (c : Char) : Bool :=
  c == ' ' || c == '\t' || c == '\n' || c == '\r'

/-- Trim surrounding whitespace from a character list. -/
def trimChars (l : List Char) : List Char :=
  ((l.dropWhile jsWhitespace).reverse.dropWhile jsWhitespace).reverse

/-- Trim surrounding whitespace from a string (JS `trim`). -/
def trimStr (s : String) : String := ⟨trimChars s.data⟩

/-- Case-fold a string (JS `toLowerCase`, ASCII range). -/
def lowerStr (s : String) : String := ⟨s.data.map Char.toLower⟩

/-- Modelled from the spec: the Validator's normalization step
(`validator.js` is not among the available sources) — trim surrounding
whitespace, then case-fold for comparison purposes. -/
def normalizeAnswer (s : String) : String := lowerStr (trimStr s)

/-- The pluggable word-plausibility capability the Validator consumes:
word and category to a plausibility verdict. -/
abbrev PlausibilityCheck := String → Category → Bool

/-- Modelled from the spec: the Validator's per-answer validity judgment
(`validator.js` is not among the available sources).  An answer is invalid
if it is empty after trimming, or its first letter does not
case-insensitively match the round's letter, or it fails the pluggable
category-appropriateness check; otherwise it is valid. -/
def isValidAnswer (wordOk : PlausibilityCheck) (letter : Char)
    (c : Category) (a : String) : Bool :=
  let t := trimChars a.data
  !t.isEmpty && ((t.headD ' ').toLower == letter.toLower) && wordOk ⟨t⟩ c

/-- Per-category record of a round verdict: original answers, validity
flags and point awards for both sides.  Field names follow the repository's
convention of calling the synthetic opponent `camilo`
(see `results.totals.camilo` in `src/js/app.js` line 182). -/
structure CategoryResult where
  category : Category
  humanAnswer : String
  camiloAnswer : String
  humanValid : Bool
  camiloValid : Bool
  humanPoints : Nat
  camiloPoints : Nat
deriving DecidableEq

/-- Aggregate totals of a round verdict.  `camilo` is the opponent side,
matching `results.totals.player` / `results.totals.camilo` read in
`src/js/app.js` lines 181-182. -/
structure Totals where
  player : Nat
  camilo : Nat
deriving DecidableEq

/-- A round verdict: the per-category detail list (in the fixed enumeration
order) plus aggregate totals, matching `results.categories` and
`results.totals` read in `src/js/app.js`. -/
structure RoundVerdict where
  categories : List CategoryResult
  totals : Totals
deriving DecidableEq

/-- Modelled from the spec: the Validator's cross-answer scoring for one
category (`validator.js` is not among the available sources).  Both sides
are judged valid/invalid first; then: both valid and normalized-equal gives
5/5, both valid and different gives 10/10, exactly one valid gives 10 to
that side and 0 to the other, neither valid gives 0/0. -/
def judgeCategory (wordOk : PlausibilityCheck) (letter : Char)
    (c : Category) (h o : String) : CategoryResult :=
  let hv := isValidAnswer wordOk letter c h
  let ov := isValidAnswer wordOk letter c o
  if hv && ov then
    if normalizeAnswer h == normalizeAnswer o then ⟨c, h, o, hv, ov, 5, 5⟩
    else ⟨c, h, o, hv, ov, 10, 10⟩
  else if hv then ⟨c, h, o, hv, ov, 10, 0⟩
  else if ov then ⟨c, h, o, hv, ov, 0, 10⟩
  else ⟨c, h, o, hv, ov, 0, 0⟩

/-- Modelled from the spec: `validateRound` (`validator.js` is not among
the available sources) — judge every category of the fixed enumeration in
order for both sides and aggregate the totals as the sums of the
per-category awards. -/
def validateRound (wordOk : PlausibilityCheck) (letter : Char)
    (human camilo : AnswerSet) : RoundVerdict :=
  let cats := Category.all.map fun c =>
    judgeCategory wordOk letter c (human c) (camilo c)
  { categories := cats
    totals := ⟨(cats.map (·.humanPoints)).sum, (cats.map (·.camiloPoints)).sum⟩ }

/-- Modelled from the spec: validation errors for malformed Validator input
(`validator.js` is not among the available sources) — a letter that is not a
single alphabetic character, or an answer object missing a required
category. -/
inductive ValidationError where
  | malformedLetter
  | missingCategory (c : Category)
deriving DecidableEq

/-- Look an answer up in a raw string-keyed answer object; a missing entry
is treated as the empty string (data model: keys are always the full fixed
category set, missing entries treated as empty string). -/
def lookupAnswer (raw : List (Category × String)) (c : Category) : String :=
  match raw.find? (fun p => p.1 == c) with
  | some p => p.2
  | none => ""

/-- A letter is well-formed when it is a single alphabetic character. -/
def letterWellFormed (s : String) : Bool :=
  s.data.length == 1 && (s.data.headD ' ').isAlpha

/-- Whether a raw answer object carries an entry for a category. -/
def hasCategory (raw : List (Category × String)) (c : Category) : Bool :=
  raw.any (fun p => p.1 == c)

/-- Whether a raw answer object carries every category of the fixed set. -/
def hasAllCategories (raw : List (Category × String)) : Bool :=
  Category.all.all (hasCategory raw)

/-- Modelled from the spec: the input-shape checking wrapper of
`validateRound` (`validator.js` is not among the available sources) —
malformed input (letter not a single alphabetic character, or an answer set
missing a required category) fails with a validation error and produces no
partial verdict; well-formed input is scored by the core. -/
def validateRoundChecked (wordOk : PlausibilityCheck) (letterStr : String)
    (humanRaw camiloRaw : List (Category × String)) :
    Except ValidationError RoundVerdict :=
  if !letterWellFormed letterStr then .error .malformedLetter
  else
    match Category.all.find?
        (fun c => !hasCategory humanRaw c || !hasCategory camiloRaw c) with
    | some c => .error (.missingCategory c)
    | none => .ok (validateRound wordOk (letterStr.data.headD 'A')
        (lookupAnswer humanRaw) (lookupAnswer camiloRaw))

/-- An error raised by the remote document store (Firebase in
`src/js/app.js`). -/
inductive DbError where
  | failure (msg : String)
deriving DecidableEq

/-- A persisted game record, after the fields of `playerData` built in
`savePlayerStats` (`src/js/app.js` lines 177-185) that the stats
aggregation reads back. -/
structure GameRecord where
  name : String
  letter : Char
  playerPoints : Nat
  camiloPoints : Nat
  timestamp : Nat
deriving DecidableEq

/-- Per-player aggregate statistics, after the stats object built in
`loadPlayerStats` (`src/js/app.js` lines 200-218). -/
structure PlayerStats where
  gamesPlayed : Nat
  totalPoints : Nat
  averagePoints : Nat
  bestScore : Nat
deriving DecidableEq

/-- JavaScript `Math.round (a / b)` for natural `a` and positive `b`:
round half up. -/
def mathRound (a b : Nat) : Nat := (2 * a + b) / (2 * b)

/-- Insert or replace a player's entry in the stats association list,
keeping first-insertion order as a JS object does. -/
def setStat (stats : List (String × PlayerStats)) (n : String)
    (v : PlayerStats) : List (String × PlayerStats) :=
  if stats.any (fun p => p.1 == n) then
    stats.map (fun p => if p.1 == n then (n, v) else p)
  else stats ++ [(n, v)]

/-- One step of the stats aggregation loop in `loadPlayerStats`
(`src/js/app.js` lines 202-218): bump games played and total points,
recompute the rounded average and the best score. -/
def applyGame (stats : List (String × PlayerStats)) (g : GameRecord) :
    List (String × PlayerStats) :=
  let prev := match stats.find? (fun p => p.1 == g.name) with
    | some p => p.2
    | none => ⟨0, 0, 0, 0⟩
  let gp := prev.gamesPlayed + 1
  let tp := prev.totalPoints + g.playerPoints
  setStat stats g.name ⟨gp, tp, mathRound tp gp, max prev.bestScore g.playerPoints⟩

/-- The stats aggregation of `loadPlayerStats` over the fetched records. -/
def computeStats (games : List GameRecord) : List (String × PlayerStats) :=
  games.foldl applyGame []

/-- `loadPlayerStats` (`src/js/app.js` lines 194-225): the whole body runs
in a try/catch, so a store failure is swallowed and the previous stats are
retained; on success the stats are recomputed from the fetched records. -/
def loadPlayerStats (queryResult : Except DbError (List GameRecord))
    (prevStats : List (String × PlayerStats)) : List (String × PlayerStats) :=
  match queryResult with
  | .ok games => computeStats games
  | .error _ => prevStats

/-- `savePlayerStats` (`src/js/app.js` lines 175-192): append the round
record then reload stats, the whole body in a try/catch, so a store failure
is swallowed (the reload is skipped and the previous stats retained) and no
error ever propagates to the caller. -/
def savePlayerStats (addDocResult : Except DbError Unit)
    (queryResult : Except DbError (List GameRecord))
    (prevStats : List (String × PlayerStats)) : List (String × PlayerStats) :=
  match addDocResult with
  | .ok _ => loadPlayerStats queryResult prevStats
  | .error _ => prevStats

/-- The two screens `endGame` can land on (`src/js/app.js` lines 152 and
171). -/
inductive Screen where
  | resultsScreen
  | setupScreen
deriving DecidableEq

/-- What one `endGame` run produced: the screen shown, the verdict saved to
session history, the verdict handed to the results renderer, and the player
stats after the persistence step. -/
structure EndGameResult where
  screen : Screen
  savedHistory : Option RoundVerdict
  shownVerdict : Option RoundVerdict
  playerStats : List (String × PlayerStats)
deriving DecidableEq

/-- The form-collection block of `endGame` (`src/js/app.js` lines 113-130):
one entry per category of the fixed enumeration, in order, with a missing
form field read as the empty string (`?.value || ''`). -/
def collectPlayerResponses (field : Category → Option String) :
    List (Category × String) :=
  Category.all.map fun c => (c, (field c).getD "")

/-- Modelled from the spec: the degraded opponent answer object used when
generation has not completed — an empty answer for every category
(`this.state.camiloResponses || {}` in `src/js/app.js` line 140, with a
missing key reading as the empty string). -/
def emptyAnswerObject : List (Category × String) :=
  Category.all.map fun c => (c, "")

/-- `endGame` (`src/js/app.js` lines 107-173): substitute the degraded
empty answer object when the opponent answers are unavailable, validate the
round, and on success save history, save stats (which never throws) and
show the results screen; on a validation error the catch block returns the
session to the setup screen with nothing saved and no verdict shown. -/
def endGame (wordOk : PlausibilityCheck) (letterStr : String)
    (playerResponses : List (Category × String))
    (camiloResponses : Option (List (Category × String)))
    (addDocResult : Except DbError Unit)
    (queryResult : Except DbError (List GameRecord))
    (prevStats : List (String × PlayerStats)) : EndGameResult :=
  let camiloRaw := camiloResponses.getD emptyAnswerObject
  match validateRoundChecked wordOk letterStr playerResponses camiloRaw with
  | .ok results =>
      { screen := .resultsScreen
        savedHistory := some results
        shownVerdict := some results
        playerStats := savePlayerStats addDocResult queryResult prevStats }
  | .error _ =>
      { screen := .setupScreen
        savedHistory := none
        shownVerdict := none
        playerStats := prevStats }

/-- The opponent's skill profile (`this.camilo.intelligence` in
`src/js/app.js` lines 155-168): level, accumulated experience, cumulative
valid/attempted counters and the rolling success rate. -/
structure OpponentProfile where
  level : Nat
  experience : Nat
  totalValid : Nat
  totalAttempted : Nat
  successRate : ℚ

/-- Categories the opponent answered validly in a verdict. -/
def camiloValidCount (v : RoundVerdict) : Nat :=
  (v.categories.filter (fun r => r.camiloValid)).length

/-- Categories the opponent attempted (non-empty after trimming) in a
verdict. -/
def camiloAttemptedCount (v : RoundVerdict) : Nat :=
  (v.categories.filter (fun r => !(trimChars r.camiloAnswer.data).isEmpty)).length

/-- Categories the opponent attempted but got judged invalid. -/
def camiloInvalidAttemptedCount (v : RoundVerdict) : Nat :=
  (v.categories.filter
    (fun r => !r.camiloValid && !(trimChars r.camiloAnswer.data).isEmpty)).length

/-- Modelled from the spec: `recordOutcome` (`camiloAI.js` is not among the
available sources) — add 10 experience per validly answered category and 2
per attempted-but-invalid category, recompute `level = 1 + floor
(experience / 100)`, and recompute the cumulative success rate
(valid / attempted × 100, clamped to [0,100], unchanged while nothing has
been attempted). -/
def recordOutcome (p : OpponentProfile) (v : RoundVerdict) : OpponentProfile :=
  let newExp := p.experience + 10 * camiloValidCount v
    + 2 * camiloInvalidAttemptedCount v
  let tv := p.totalValid + camiloValidCount v
  let ta := p.totalAttempted + camiloAttemptedCount v
  { level := 1 + newExp / 100
    experience := newExp
    totalValid := tv
    totalAttempted := ta
    successRate := if ta = 0 then p.successRate
      else max 0 (min 100 ((tv : ℚ) * 100 / (ta : ℚ))) }

/-- Modelled from the spec: the profile a session starts from — level 1, no
experience, success rate 0. -/
def initialProfile : OpponentProfile := ⟨1, 0, 0, 0, 0⟩

/-- The profile reached from the session-initial profile after a sequence
of recorded round verdicts. -/
def runRounds (vs : List RoundVerdict) : OpponentProfile :=
  vs.foldl recordOutcome initialProfile

/-- The experience-within-level figure the results screen renders:
`intelligence.experience % 100` (`src/js/app.js` line 164). -/
def experienceDisplay (p : OpponentProfile) : Nat := p.experience % 100

lemma validateRound_categories (pl : PlausibilityCheck) (L : Char)
    (hA oA : AnswerSet) :
    (validateRound pl L hA oA).categories
      = Category.all.map (fun c => judgeCategory pl L c (hA c) (oA c)) := rfl

lemma judgeCategory_fields (pl : PlausibilityCheck) (L : Char) (c : Category)
    (a b : String) :
    (judgeCategory pl L c a b).category = c ∧
    (judgeCategory pl L c a b).humanAnswer = a ∧
    (judgeCategory pl L c a b).camiloAnswer = b ∧
    (judgeCategory pl L c a b).humanValid = isValidAnswer pl L c a ∧
    (judgeCategory pl L c a b).camiloValid = isValidAnswer pl L c b := by
  simp only [judgeCategory]
  split_ifs <;> simp_all

lemma judgeCategory_points_le (pl : PlausibilityCheck) (L : Char)
    (c : Category) (a b : String) :
    (judgeCategory pl L c a b).humanPoints ≤ 10 ∧
    (judgeCategory pl L c a b).camiloPoints ≤ 10 := by
  simp only [judgeCategory]
  split_ifs <;> simp

lemma sum_le_ten_mul_length (l : List Nat) (hl : ∀ x ∈ l, x ≤ 10) :
    l.sum ≤ 10 * l.length := by
  induction l with
  | nil => simp
  | cons a t ih =>
      have ha := hl a (List.mem_cons_self a t)
      have ht := ih (fun x hx => hl x (List.mem_cons_of_mem a hx))
      simp only [List.sum_cons, List.length_cons, Nat.mul_succ]
      omega

/-- C1: the Validator applies the cross-answer scoring rule exactly for
every round letter and every category: both valid and normalized-equal
gives 5/5, both valid and different gives 10/10, exactly one valid gives
10/0 in that side's favor, neither valid gives 0/0 — in particular two
equal but invalid answers land in the 0/0 branch because validity is
decided before the equality comparison. -/
theorem validateRound_cross_answer_scoring (pl : PlausibilityCheck)
    (L : Char) (hA oA : AnswerSet) (r : CategoryResult)
    (hr : r ∈ (validateRound pl L hA oA).categories) :
    (r.humanValid = true → r.camiloValid = true →
      normalizeAnswer r.humanAnswer = normalizeAnswer r.camiloAnswer →
      r.humanPoints = 5 ∧ r.camiloPoints = 5) ∧
    (r.humanValid = true → r.camiloValid = true →
      normalizeAnswer r.humanAnswer ≠ normalizeAnswer r.camiloAnswer →
      r.humanPoints = 10 ∧ r.camiloPoints = 10) ∧
    (r.humanValid = true → r.camiloValid = false →
      r.humanPoints = 10 ∧ r.camiloPoints = 0) ∧
    (r.humanValid = false → r.camiloValid = true →
      r.humanPoints = 0 ∧ r.camiloPoints = 10) ∧
    (r.humanValid = false → r.camiloValid = false →
      r.humanPoints = 0 ∧ r.camiloPoints = 0) := by
  rw [validateRound_categories] at hr
  obtain ⟨c, -, rfl⟩ := List.mem_map.1 hr
  obtain ⟨hcat, hha, hca, hhv, hcv⟩ := judgeCategory_fields pl L c (hA c) (oA c)
  rw [hhv, hcv, hha, hca]
  cases hv : isValidAnswer pl L c (hA c) <;>
    cases ov : isValidAnswer pl L c (oA c)
  · simp [judgeCategory, hv, ov]
  · simp [judgeCategory, hv, ov]
  · simp [judgeCategory, hv, ov]
  · by_cases heq : normalizeAnswer (hA c) = normalizeAnswer (oA c)
    · simp [judgeCategory, hv, ov, heq]
    · simp [judgeCategory, hv, ov, heq]

theorem validateRound_cross_answer_scoring_witness :
    (judgeCategory (fun _ _ => true) 'A' Category.name "Ant" "ant").humanPoints = 5 ∧
    (judgeCategory (fun _ _ => true) 'A' Category.name "Ant" "ant").camiloPoints = 5 := by
  have h := validateRound_cross_answer_scoring (fun _ _ => true) 'A'
    (fun _ => "Ant") (fun _ => "ant")
    (judgeCategory (fun _ _ => true) 'A' Category.name "Ant" "ant") (by decide)
  exact h.1 (by decide) (by decide) (by decide)

/-- C2: the verdict totals are the sums of the per-category human and
opponent awards, and neither side's total can exceed 10 points per
category — 160 for the 16-category set. -/
theorem validateRound_totals_are_sums (pl : PlausibilityCheck) (L : Char)
    (hA oA : AnswerSet) :
    ((validateRound pl L hA oA).totals.player
      = ((validateRound pl L hA oA).categories.map (·.humanPoints)).sum) ∧
    ((validateRound pl L hA oA).totals.camilo
      = ((validateRound pl L hA oA).categories.map (·.camiloPoints)).sum) ∧
    ((validateRound pl L hA oA).totals.player ≤ 10 * Category.all.length) ∧
    ((validateRound pl L hA oA).totals.camilo ≤ 10 * Category.all.length) ∧
    ((validateRound pl L hA oA).totals.player ≤ 160) ∧
    ((validateRound pl L hA oA).totals.camilo ≤ 160) := by
  have hhuman : ∀ x ∈ (validateRound pl L hA oA).categories.map (·.humanPoints),
      x ≤ 10 := by
    intro x hx
    obtain ⟨r, hrmem, rfl⟩ := List.mem_map.1 hx
    rw [validateRound_categories] at hrmem
    obtain ⟨c, -, rfl⟩ := List.mem_map.1 hrmem
    exact (judgeCategory_points_le pl L c (hA c) (oA c)).1
  have hcamilo : ∀ x ∈ (validateRound pl L hA oA).categories.map (·.camiloPoints),
      x ≤ 10 := by
    intro x hx
    obtain ⟨r, hrmem, rfl⟩ := List.mem_map.1 hx
    rw [validateRound_categories] at hrmem
    obtain ⟨c, -, rfl⟩ := List.mem_map.1 hrmem
    exact (judgeCategory_points_le pl L c (hA c) (oA c)).2
  have hlen : ((validateRound pl L hA oA).categories.map
      (fun r => r.humanPoints)).length = 16 := by
    rw [validateRound_categories]
    simp [Category.all]
  have hlen' : ((validateRound pl L hA oA).categories.map
      (fun r => r.camiloPoints)).length = 16 := by
    rw [validateRound_categories]
    simp [Category.all]
  have h1 := sum_le_ten_mul_length _ hhuman
  have h2 := sum_le_ten_mul_length _ hcamilo
  rw [hlen] at h1
  rw [hlen'] at h2
  exact ⟨rfl, rfl, h1, h2, h1, h2⟩

lemma isValidAnswer_false_of (pl : PlausibilityCheck) (L : Char)
    (c : Category) (a : String)
    (h : (trimChars a.data).isEmpty = true ∨
      ((trimChars a.data).headD ' ').toLower ≠ L.toLower) :
    isValidAnswer pl L c a = false := by
  rcases h with h | h
  · simp [isValidAnswer, h]
  · have hbeq : (((trimChars a.data).headD ' ').toLower == L.toLower) = false := by
      cases hb : (((trimChars a.data).headD ' ').toLower == L.toLower)
      · rfl
      · exact absurd (eq_of_beq hb) h
    simp only [isValidAnswer]
    rw [hbeq]
    simp

lemma invalid_human_scores_zero (pl : PlausibilityCheck) (L : Char)
    (c : Category) (a b : String) (ha : isValidAnswer pl L c a = false) :
    (judgeCategory pl L c a b).humanValid = false ∧
    (judgeCategory pl L c a b).humanPoints = 0 := by
  cases ov : isValidAnswer pl L c b <;> simp [judgeCategory, ha, ov]

lemma judgeCategory_empty (pl : PlausibilityCheck) (L : Char) (c : Category) :
    judgeCategory pl L c "" "" = ⟨c, "", "", false, false, 0, 0⟩ := rfl

/-- C3: with both answer sets entirely empty the verdict totals are 0/0 and
every category is invalid for both sides; more generally any answer that is
empty after trimming or whose first letter does not case-insensitively
match the round letter is judged invalid and scores 0, whatever the other
side supplied. -/
theorem validateRound_empty_and_invalid (pl : PlausibilityCheck) (L : Char) :
    ((validateRound pl L (fun _ => "") (fun _ => "")).totals = ⟨0, 0⟩) ∧
    (∀ r ∈ (validateRound pl L (fun _ => "") (fun _ => "")).categories,
      r.humanValid = false ∧ r.camiloValid = false ∧
      r.humanPoints = 0 ∧ r.camiloPoints = 0) ∧
    (∀ (hA oA : AnswerSet) (r : CategoryResult),
      r ∈ (validateRound pl L hA oA).categories →
      ((trimChars r.humanAnswer.data).isEmpty = true ∨
        ((trimChars r.humanAnswer.data).headD ' ').toLower ≠ L.toLower) →
      r.humanValid = false ∧ r.humanPoints = 0) := by
  refine ⟨?_, ?_, ?_⟩
  · simp [validateRound, Category.all, judgeCategory_empty]
  · intro r hr
    rw [validateRound_categories] at hr
    obtain ⟨c, -, rfl⟩ := List.mem_map.1 hr
    rw [judgeCategory_empty]
    exact ⟨rfl, rfl, rfl, rfl⟩
  · intro hA oA r hr hcond
    rw [validateRound_categories] at hr
    obtain ⟨c, -, rfl⟩ := List.mem_map.1 hr
    obtain ⟨-, hha, -, hhv, -⟩ := judgeCategory_fields pl L c (hA c) (oA c)
    rw [hha] at hcond
    have hfalse := isValidAnswer_false_of pl L c (hA c) hcond
    obtain ⟨hv0, hp0⟩ := invalid_human_scores_zero pl L c (hA c) (oA c) hfalse
    exact ⟨hv0, hp0⟩

theorem validateRound_empty_and_invalid_witness :
    (judgeCategory (fun _ _ => true) 'C' Category.fruit "Dog" "").humanValid
      = false ∧
    (judgeCategory (fun _ _ => true) 'C' Category.fruit "Dog" "").humanPoints
      = 0 := by
  have h := validateRound_empty_and_invalid (fun _ _ => true) 'C'
  exact h.2.2 (fun _ => "Dog") (fun _ => "")
    (judgeCategory (fun _ _ => true) 'C' Category.fruit "Dog" "")
    (by rw [validateRound_categories]
        exact List.mem_map.2 ⟨Category.fruit, by decide, rfl⟩)
    (by decide)

/-- C6: `validateRound` is a pure, deterministic function of its inputs
(the plausibility capability, the letter and the two answer sets): two
calls with identical inputs yield identical verdicts, and the embedding as
a total function certifies the absence of side effects or hidden state. -/
theorem validateRound_deterministic (pl pl' : PlausibilityCheck)
    (L L' : Char) (hA hA' oA oA' : AnswerSet)
    (h1 : pl = pl') (h2 : L = L') (h3 : hA = hA') (h4 : oA = oA') :
    validateRound pl L hA oA = validateRound pl' L' hA' oA' := by
  subst h1
  subst h2
  subst h3
  subst h4
  rfl

theorem validateRound_deterministic_witness :
    validateRound (fun _ _ => true) 'A' (fun _ => "Ant") (fun _ => "ant")
      = validateRound (fun _ _ => true) 'A' (fun _ => "Ant") (fun _ => "ant") :=
  validateRound_deterministic (fun _ _ => true) (fun _ _ => true) 'A' 'A'
    (fun _ => "Ant") (fun _ => "Ant") (fun _ => "ant") (fun _ => "ant")
    rfl rfl rfl rfl

lemma judgeCategory_category (pl : PlausibilityCheck) (L : Char)
    (c : Category) (a b : String) :
    (judgeCategory pl L c a b).category = c :=
  (judgeCategory_fields pl L c a b).1

/-- C9: answer sets carry exactly the fixed 16-category set — the
controller's form collection produces one entry per category in the fixed
enumeration order with missing fields read as the empty string, a missing
key in a raw answer object is read as the empty string, and the verdict
returned by the Validator lists exactly the same categories in the same
fixed order, none dropped or added. -/
theorem verdict_category_set_fixed (pl : PlausibilityCheck) (L : Char)
    (hA oA : AnswerSet) (field : Category → Option String)
    (raw : List (Category × String)) (c : Category)
    (hmiss : raw.find? (fun p => p.1 == c) = none) :
    ((validateRound pl L hA oA).categories.map (·.category) = Category.all) ∧
    ((collectPlayerResponses field).map (·.1) = Category.all) ∧
    lookupAnswer raw c = "" := by
  refine ⟨?_, ?_, ?_⟩
  · rw [validateRound_categories, List.map_map]
    have hpt : ∀ x ∈ Category.all,
        ((fun r : CategoryResult => r.category)
          ∘ fun c => judgeCategory pl L c (hA c) (oA c)) x = x :=
      fun x _ => judgeCategory_category pl L x (hA x) (oA x)
    rw [List.map_congr_left hpt]
    exact List.map_id Category.all
  · rfl
  · simp [lookupAnswer, hmiss]

theorem verdict_category_set_fixed_witness :
    ((validateRound (fun _ _ => true) 'A' (fun _ => "") (fun _ => "")).categories.map
      (·.category) = Category.all) ∧
    lookupAnswer [] Category.name = "" := by
  have h := verdict_category_set_fixed (fun _ _ => true) 'A' (fun _ => "")
    (fun _ => "") (fun _ => none) [] Category.name rfl
  exact ⟨h.1, h.2.2⟩

/-- C10: persistence failures are contained — `savePlayerStats` and
`loadPlayerStats` swallow any document-store error, so the screen reached
by `endGame`, the verdict it shows and the history it saves do not depend
on the outcomes of the store operations: a failed save or load never
prevents the computed verdict from being shown. -/
theorem persistence_failures_contained (pl : PlausibilityCheck) (ls : String)
    (humanRaw : List (Category × String))
    (cr : Option (List (Category × String)))
    (a1 a2 : Except DbError Unit) (q1 q2 : Except DbError (List GameRecord))
    (prev : List (String × PlayerStats)) :
    ((endGame pl ls humanRaw cr a1 q1 prev).screen
      = (endGame pl ls humanRaw cr a2 q2 prev).screen) ∧
    ((endGame pl ls humanRaw cr a1 q1 prev).shownVerdict
      = (endGame pl ls humanRaw cr a2 q2 prev).shownVerdict) ∧
    ((endGame pl ls humanRaw cr a1 q1 prev).savedHistory
      = (endGame pl ls humanRaw cr a2 q2 prev).savedHistory) := by
  cases hv : validateRoundChecked pl ls humanRaw (cr.getD emptyAnswerObject) <;>
    simp [endGame, hv]

/-- C7: malformed input — a letter that is not a single alphabetic
character, or an answer object missing a required category — makes the
Validator fail with a validation error and no partial verdict, after which
the round controller lands on the setup screen with no history saved, no
verdict shown and the player stats untouched. -/
theorem malformed_input_fails_and_resets (pl : PlausibilityCheck)
    (ls : String) (humanRaw : List (Category × String))
    (cr : Option (List (Category × String)))
    (addDocResult : Except DbError Unit)
    (queryResult : Except DbError (List GameRecord))
    (prev : List (String × PlayerStats))
    (hbad : letterWellFormed ls = false ∨ hasAllCategories humanRaw = false ∨
      hasAllCategories (cr.getD emptyAnswerObject) = false) :
    (∃ e, validateRoundChecked pl ls humanRaw (cr.getD emptyAnswerObject)
      = Except.error e) ∧
    ((endGame pl ls humanRaw cr addDocResult queryResult prev).screen
      = Screen.setupScreen) ∧
    ((endGame pl ls humanRaw cr addDocResult queryResult prev).savedHistory
      = none) ∧
    ((endGame pl ls humanRaw cr addDocResult queryResult prev).shownVerdict
      = none) ∧
    ((endGame pl ls humanRaw cr addDocResult queryResult prev).playerStats
      = prev) := by
  have herr : ∃ e, validateRoundChecked pl ls humanRaw (cr.getD emptyAnswerObject)
      = Except.error e := by
    by_cases hl : letterWellFormed ls = true
    · have hmissing : ∃ c ∈ Category.all,
          (!hasCategory humanRaw c
            || !hasCategory (cr.getD emptyAnswerObject) c) = true := by
        rcases hbad with h | h | h
        · rw [hl] at h
          cases h
        · obtain ⟨c, hc, hpc⟩ := List.all_eq_false.mp h
          exact ⟨c, hc, by simp_all⟩
        · obtain ⟨c, hc, hpc⟩ := List.all_eq_false.mp h
          exact ⟨c, hc, by simp_all⟩
      obtain ⟨c, hcmem, hcbad⟩ := hmissing
      have hne : Category.all.find? (fun c => !hasCategory humanRaw c
          || !hasCategory (cr.getD emptyAnswerObject) c) ≠ none := by
        intro hnone
        exact absurd hcbad (by simpa using List.find?_eq_none.mp hnone c hcmem)
      obtain ⟨c', hc'⟩ := Option.ne_none_iff_exists'.mp hne
      exact ⟨ValidationError.missingCategory c',
        by simp [validateRoundChecked, hl, hc']⟩
    · have hl' : letterWellFormed ls = false := by
        cases hv : letterWellFormed ls
        · rfl
        · exact absurd hv hl
      exact ⟨ValidationError.malformedLetter,
        by simp [validateRoundChecked, hl']⟩
  obtain ⟨e, he⟩ := herr
  refine ⟨⟨e, he⟩, ?_, ?_, ?_, ?_⟩ <;> simp [endGame, he]

theorem malformed_input_fails_and_resets_witness :
    ((endGame (fun _ _ => true) "" [] none (Except.ok ()) (Except.ok []) []).screen
      = Screen.setupScreen) ∧
    ((endGame (fun _ _ => true) "" [] none (Except.ok ()) (Except.ok []) []).shownVerdict
      = none) := by
  have h := malformed_input_fails_and_resets (fun _ _ => true) "" [] none
    (Except.ok ()) (Except.ok []) [] (Or.inl (by decide))
  exact ⟨h.2.1, h.2.2.2.1⟩

lemma hasCategory_emptyAnswerObject (c : Category) :
    hasCategory emptyAnswerObject c = true := by
  cases c <;> rfl

lemma lookupAnswer_emptyAnswerObject (c : Category) :
    lookupAnswer emptyAnswerObject c = "" := by
  cases c <;> rfl

lemma judgeCategory_one_sided (pl : PlausibilityCheck) (L : Char)
    (c : Category) (a b : String) (ha : isValidAnswer pl L c a = true)
    (hb : isValidAnswer pl L c b = false) :
    (judgeCategory pl L c a b).humanPoints = 10 ∧
    (judgeCategory pl L c a b).camiloPoints = 0 := by
  simp [judgeCategory, ha, hb]

/-- C8: when the opponent answers are unavailable at round end the
controller substitutes an empty answer per category instead of aborting,
so a well-formed round is still scored and shown: every category the human
answered validly awards 10 to the human and 0 to the opponent. -/
theorem generation_unavailable_scores_human (pl : PlausibilityCheck)
    (ls : String) (humanRaw : List (Category × String))
    (addDocResult : Except DbError Unit)
    (queryResult : Except DbError (List GameRecord))
    (prev : List (String × PlayerStats))
    (hl : letterWellFormed ls = true)
    (hh : hasAllCategories humanRaw = true) :
    ∃ v, ((endGame pl ls humanRaw none addDocResult queryResult prev).shownVerdict
        = some v) ∧
      ((endGame pl ls humanRaw none addDocResult queryResult prev).screen
        = Screen.resultsScreen) ∧
      (∀ r ∈ v.categories, r.humanValid = true →
        r.humanPoints = 10 ∧ r.camiloPoints = 0) := by
  have hh' : Category.all.all (hasCategory humanRaw) = true := hh
  have hfind : Category.all.find? (fun c => !hasCategory humanRaw c
      || !hasCategory emptyAnswerObject c) = none := by
    apply List.find?_eq_none.mpr
    intro c hc
    have h1 : hasCategory humanRaw c = true := List.all_eq_true.mp hh' c hc
    simp [h1, hasCategory_emptyAnswerObject c]
  have hok : validateRoundChecked pl ls humanRaw emptyAnswerObject
      = Except.ok (validateRound pl (ls.data.headD 'A')
          (lookupAnswer humanRaw) (lookupAnswer emptyAnswerObject)) := by
    simp [validateRoundChecked, hl, hfind]
  refine ⟨validateRound pl (ls.data.headD 'A') (lookupAnswer humanRaw)
    (lookupAnswer emptyAnswerObject), ?_, ?_, ?_⟩
  · simp [endGame, hok]
  · simp [endGame, hok]
  · intro r hr hvalid
    rw [validateRound_categories] at hr
    obtain ⟨c, -, rfl⟩ := List.mem_map.1 hr
    rw [lookupAnswer_emptyAnswerObject c] at hvalid ⊢
    obtain ⟨-, -, -, hhv, -⟩ := judgeCategory_fields pl (ls.data.headD 'A') c
      (lookupAnswer humanRaw c) ""
    rw [hhv] at hvalid
    exact judgeCategory_one_sided pl (ls.data.headD 'A') c
      (lookupAnswer humanRaw c) "" hvalid rfl

theorem generation_unavailable_scores_human_witness :
    ∃ v, ((endGame (fun _ _ => true) "B" (Category.all.map fun c => (c, "Blue"))
        none (Except.ok ()) (Except.ok []) []).shownVerdict = some v) ∧
      ((endGame (fun _ _ => true) "B" (Category.all.map fun c => (c, "Blue"))
        none (Except.ok ()) (Except.ok []) []).screen = Screen.resultsScreen) ∧
      (∀ r ∈ v.categories, r.humanValid = true →
        r.humanPoints = 10 ∧ r.camiloPoints = 0) :=
  generation_unavailable_scores_human (fun _ _ => true) "B"
    (Category.all.map fun c => (c, "Blue")) (Except.ok ()) (Except.ok []) []
    (by decide) (by decide)

lemma profile_inv (vs : List RoundVerdict) (p : OpponentProfile)
    (hlvl : p.level = 1 + p.experience / 100)
    (h0 : 0 ≤ p.successRate) (h100 : p.successRate ≤ 100) :
    ((vs.foldl recordOutcome p).level
      = 1 + (vs.foldl recordOutcome p).experience / 100) ∧
    0 ≤ (vs.foldl recordOutcome p).successRate ∧
    (vs.foldl recordOutcome p).successRate ≤ 100 := by
  induction vs generalizing p with
  | nil => exact ⟨hlvl, h0, h100⟩
  | cons v t ih =>
      simp only [List.foldl_cons]
      apply ih
      · rfl
      · dsimp [recordOutcome]
        split
        · exact h0
        · exact le_max_left 0 _
      · dsimp [recordOutcome]
        split
        · exact h100
        · exact max_le (by norm_num) (min_le_left 100 _)

/-- C4: across any sequence of `recordOutcome` calls starting from the
session-initial profile, experience and level never decrease, experience
stays non-negative, level stays at least 1, and the success rate stays
within [0, 100] after every call. -/
theorem recordOutcome_monotone (vs : List RoundVerdict) (v : RoundVerdict) :
    ((runRounds vs).experience ≤ (recordOutcome (runRounds vs) v).experience) ∧
    ((runRounds vs).level ≤ (recordOutcome (runRounds vs) v).level) ∧
    (0 ≤ (recordOutcome (runRounds vs) v).experience) ∧
    (1 ≤ (recordOutcome (runRounds vs) v).level) ∧
    (0 ≤ (recordOutcome (runRounds vs) v).successRate) ∧
    ((recordOutcome (runRounds vs) v).successRate ≤ 100) := by
  simp only [runRounds]
  have hP := profile_inv vs initialProfile rfl (le_refl 0) (by norm_num [initialProfile])
  have hQ := profile_inv (vs ++ [v]) initialProfile rfl (le_refl 0) (by norm_num [initialProfile])
  rw [List.foldl_append, List.foldl_cons, List.foldl_nil] at hQ
  refine ⟨?_, ?_, Nat.zero_le _, ?_, hQ.2.1, hQ.2.2⟩
  · dsimp [recordOutcome]
    omega
  · rw [hP.1]
    dsimp [recordOutcome]
    have hle : (List.foldl recordOutcome initialProfile vs).experience ≤
        (List.foldl recordOutcome initialProfile vs).experience
          + 10 * camiloValidCount v + 2 * camiloInvalidAttemptedCount v := by
      omega
    exact Nat.add_le_add_left (Nat.div_le_div_right hle) 1
  · dsimp [recordOutcome]
    exact Nat.le_add_right 1 _

lemma experience_gain (vs : List RoundVerdict) (p : OpponentProfile)
    (h : ∀ w ∈ vs, camiloValidCount w = 16) :
    p.experience + 160 * vs.length ≤ (vs.foldl recordOutcome p).experience := by
  induction vs generalizing p with
  | nil => simp
  | cons v t ih =>
      have hv : camiloValidCount v = 16 := h v (List.mem_cons_self v t)
      have ht := ih (recordOutcome p v) (fun w hw => h w (List.mem_cons_of_mem v hw))
      have hstep : p.experience + 160 ≤ (recordOutcome p v).experience := by
        dsimp [recordOutcome]
        rw [hv]
        omega
      simp only [List.foldl_cons, List.length_cons]
      calc p.experience + 160 * (t.length + 1)
          = (p.experience + 160) + 160 * t.length := by ring
        _ ≤ (recordOutcome p v).experience + 160 * t.length :=
            Nat.add_le_add_right hstep _
        _ ≤ (t.foldl recordOutcome (recordOutcome p v)).experience := ht

/-- C5: after every `recordOutcome` call the profile satisfies
`level = 1 + floor (experience / 100)` and the displayed
experience-within-level equals `experience mod 100`; after 10 consecutive
rounds in which the opponent answers all 16 categories validly, experience
is at least 1600 and level at least 17. -/
theorem recordOutcome_level_formula (vs : List RoundVerdict)
    (hlen : vs.length = 10) (hvalid : ∀ w ∈ vs, camiloValidCount w = 16) :
    (∀ (us : List RoundVerdict) (u : RoundVerdict),
      ((recordOutcome (runRounds us) u).level
        = 1 + (recordOutcome (runRounds us) u).experience / 100) ∧
      (experienceDisplay (recordOutcome (runRounds us) u)
        = (recordOutcome (runRounds us) u).experience % 100)) ∧
    (1600 ≤ (runRounds vs).experience) ∧
    (17 ≤ (runRounds vs).level) := by
  have hexp : 1600 ≤ (runRounds vs).experience := by
    have h := experience_gain vs initialProfile hvalid
    rw [hlen] at h
    simpa [runRounds, initialProfile] using h
  refine ⟨fun us u => ⟨rfl, rfl⟩, hexp, ?_⟩
  have hlvl := (profile_inv vs initialProfile rfl (le_refl 0) (by norm_num [initialProfile])).1
  have h16 : 16 ≤ (runRounds vs).experience / 100 :=
    (Nat.le_div_iff_mul_le (by norm_num)).mpr (by omega)
  have : (runRounds vs).level = 1 + (runRounds vs).experience / 100 := hlvl
  omega

theorem recordOutcome_level_formula_witness :
    (1600 ≤ (runRounds (List.replicate 10 (validateRound (fun _ _ => true) 'A'
      (fun _ => "Ant") (fun _ => "Ant")))).experience) ∧
    (17 ≤ (runRounds (List.replicate 10 (validateRound (fun _ _ => true) 'A'
      (fun _ => "Ant") (fun _ => "Ant")))).level) := by
  have h := recordOutcome_level_formula
    (List.replicate 10 (validateRound (fun _ _ => true) 'A'
      (fun _ => "Ant") (fun _ => "Ant")))
    (by simp)
    (by
      intro w hw
      rw [List.eq_of_mem_replicate hw]
      decide)
  exact ⟨h.2.1, h.2.2⟩
